import Mathlib

/-!
Shallow embedding of the git-plumbing program (`src/main.rs`), modelling the
object codec (pack/parse for blob and tree objects), the content-addressable
object store, the recursive tree builder, and the `cat-file` command.

Bytes are modelled as `Nat` (one entry per `u8`), byte buffers as `List Nat`.
Rust machine integers (`u32`, `usize`) are modelled as `Nat` with explicit
`% 2^32` / `% 2^64` where overflow matters.  Fallible Rust code
(`Result<_, anyhow::Error>`) is modelled as `Except Err _`; a Rust *panic*
(a failed `unwrap()` or, in debug builds, an arithmetic overflow) is
modelled as the distinguished error value `Err.panic` so that panics are
kept apart from the typed errors the program itself constructs.
-/

namespace GitPlumbing

/-- Errors of the embedded program.  Each constructor corresponds to one
error site in `src/main.rs` (the `anyhow!` / `ensure!` / `bail!` calls and
the `?`-propagated library errors), except `panic`, which models a Rust
panic (a failed `unwrap`, or the debug-build overflow of `remaining -= n`). -/
inductive Err where
  /-- a Rust panic: `Option::unwrap` on `None`, or debug-build integer overflow -/
  | panic
  /-- `std::str::from_utf8` failure (`context("not utf8 ?")` or `?`-propagated) -/
  | notUtf8
  /-- `str::parse::<u32>` / `str::parse::<usize>` failure (`context("not a number ?")`) -/
  | notANumber
  /-- `anyhow!("Object type ... is not supported")` in `read_git_object` -/
  | unsupportedType
  /-- `ensure!(n == size, "Expected {size} bytes, got {n} bytes")` in the blob branch -/
  | sizeMismatch (expected got : Nat)
  /-- `bail!("Unimplemented read: commit")` -/
  | unimplementedCommit
  /-- `Read::read_exact` returning `ErrorKind::UnexpectedEof`, propagated by `?` -/
  | ioEof
  /-- `fs::create_dir` failing because the directory already exists, propagated by `?` -/
  | dirExists
  /-- `bail!("Neither file nor dir")` in `write_tree` -/
  | neitherFileNorDir
  /-- `bail!("No such file or directory: ...")` -/
  | noSuchFile
  /-- `bail!("cat-file can only read blob objects")` -/
  | catFileNotBlob
  deriving Repr, DecidableEq

deriving instance DecidableEq for Except

/-! ## Byte-stream reading primitives

`readUntil` models `BufRead::read_until(delim, &mut buf)` on an in-memory
byte stream: it returns the bytes read (including the delimiter when it was
found; everything up to EOF otherwise) together with the rest of the stream. -/

/-- Model of `BufRead::read_until`: first component is the chunk read
(delimiter included when present), second component the remaining stream. -/
def readUntil (d : Nat) : List Nat → List Nat × List Nat
  | [] => ([], [])
  | b :: rest =>
    if b = d then ([b], rest)
    else
      let p := readUntil d rest
      (b :: p.1, p.2)

/-- Model of `slice::strip_suffix(&[d])`: `some` of the list without its last
byte when that byte is `d`, `none` otherwise. -/
def stripSuffix1 (d : Nat) (l : List Nat) : Option (List Nat) :=
  match l.getLast? with
  | some x => if x = d then some l.dropLast else none
  | none => none

/-! ## Decimal numerals

Models `usize::to_string` / `str::parse::<u32>` / `str::parse::<usize>`
over ASCII byte lists. -/

/-- Helper for `natToDecBytes`, accumulating ASCII digits from the right
(the division loop inside Rust's integer `Display`).  The first argument
is fuel bounding the number of loop iterations, so that the recursion is
structural; any fuel of at least the digit count of `n` (so in particular
`n` itself) yields the loop's result. -/
def natToDecBytesAux : Nat → Nat → List Nat → List Nat
  | 0, _, acc => acc
  | fuel + 1, n, acc =>
    if n = 0 then acc else natToDecBytesAux fuel (n / 10) ((48 + n % 10) :: acc)

/-- Model of `n.to_string().as_bytes()` for an unsigned integer: ASCII
decimal digits, no sign, no leading zeros (`0` renders as `"0"`). -/
def natToDecBytes (n : Nat) : List Nat :=
  if n = 0 then [48] else natToDecBytesAux n n []

/-- Digit-accumulation loop of integer parsing:
`acc` is the value of the digits consumed so far. -/
def digitsValGo (acc : Nat) : List Nat → Option Nat
  | [] => some acc
  | b :: r => if 48 ≤ b ∧ b ≤ 57 then digitsValGo (acc * 10 + (b - 48)) r else none

/-- Value of a non-empty all-digit ASCII byte list. -/
def digitsVal : List Nat → Option Nat
  | [] => none
  | l => digitsValGo 0 l

/-- Digit run with the overflow bound of the target integer type
(Rust's per-digit `checked_mul`/`checked_add`; equivalent to a final bound
check because the accumulated value only grows). -/
def digitsValBounded (bound : Nat) (l : List Nat) : Option Nat :=
  match digitsVal l with
  | some v => if v < bound then some v else none
  | none => none

/-- Model of `str::parse::<uN>` (`u32::from_str` for `bound = 2^32`,
`usize::from_str` for `bound = 2^64`): an optional ASCII sign (`+`, or `-`
which for an unsigned type only accepts value zero), then a non-empty digit
run whose value must fit in the type. -/
def parseDecBounded (bound : Nat) (l : List Nat) : Option Nat :=
  match l with
  | [] => none
  | c :: rest =>
    if c = 43 then digitsValBounded bound rest
    else if c = 45 then
      match digitsValBounded bound rest with
      | some v => if v = 0 then some 0 else none
      | none => none
    else digitsValBounded bound l

/-! ## Hexadecimal (the `hex` crate) -/

/-- Lowercase hex digit of a nibble (`hex::encode` uses lowercase). -/
def hexDigit (n : Nat) : Nat := if n < 10 then 48 + n else 87 + n

/-- Model of `hex::encode`: two lowercase hex characters (as ASCII bytes)
per input byte. -/
def hexEncode : List Nat → List Nat
  | [] => []
  | b :: r => hexDigit (b / 16) :: hexDigit (b % 16) :: hexEncode r

/-- Value of one hex character (`hex::decode` accepts both cases). -/
def hexVal (c : Nat) : Option Nat :=
  if 48 ≤ c ∧ c ≤ 57 then some (c - 48)
  else if 97 ≤ c ∧ c ≤ 102 then some (c - 87)
  else if 65 ≤ c ∧ c ≤ 70 then some (c - 55)
  else none

/-- Model of `hex::decode`: pairs of hex characters to bytes; fails on an
odd-length input or a non-hex character. -/
def hexDecode : List Nat → Option (List Nat)
  | [] => some []
  | [_] => none
  | c1 :: c2 :: r =>
    match hexVal c1, hexVal c2, hexDecode r with
    | some h, some lo, some rest => some ((h * 16 + lo) :: rest)
    | _, _, _ => none

/-! ## UTF-8 validation (`std::str::from_utf8`) -/

/-- A UTF-8 continuation byte (`0x80..=0xBF`). -/
def isCont (b : Nat) : Bool := 128 ≤ b ∧ b ≤ 191

/-- Constraint on the second byte of a three-byte sequence led by `b`
(`0xE0` excludes overlong forms, `0xED` excludes surrogates). -/
def utf8Second3 (b c1 : Nat) : Bool :=
  if b = 224 then 160 ≤ c1 ∧ c1 ≤ 191
  else if b = 237 then 128 ≤ c1 ∧ c1 ≤ 159
  else isCont c1

/-- Constraint on the second byte of a four-byte sequence led by `b`
(`0xF0` excludes overlong forms, `0xF4` enforces the `U+10FFFF` maximum). -/
def utf8Second4 (b c1 : Nat) : Bool :=
  if b = 240 then 144 ≤ c1 ∧ c1 ≤ 191
  else if b = 244 then 128 ≤ c1 ∧ c1 ≤ 143
  else isCont c1

/-- Validation loop of `std::str::from_utf8` (shortest-form UTF-8,
surrogates excluded, max `U+10FFFF`): lead bytes `0x00..0x7F` stand alone,
`0xC2..0xDF` take one continuation byte, `0xE0..0xEF` two, `0xF0..0xF4`
three; everything else is invalid.  The first argument is fuel bounding the
number of decoded characters, so that the recursion is structural; each
character consumes at least one byte, so any fuel of at least the byte
count yields the loop's result (at exhausted fuel only the empty remainder
is valid, which such fuel never reaches). -/
def utf8ValidGo : Nat → List Nat → Bool
  | 0, l => l.isEmpty
  | _ + 1, [] => true
  | fuel + 1, b :: rest =>
    if b ≤ 127 then utf8ValidGo fuel rest
    else if b < 194 then false
    else if b ≤ 223 then
      match rest with
      | c1 :: r => isCont c1 && utf8ValidGo fuel r
      | [] => false
    else if b ≤ 239 then
      match rest with
      | c1 :: c2 :: r => utf8Second3 b c1 && isCont c2 && utf8ValidGo fuel r
      | _ => false
    else if b ≤ 244 then
      match rest with
      | c1 :: c2 :: c3 :: r => utf8Second4 b c1 && isCont c2 && isCont c3 && utf8ValidGo fuel r
      | _ => false
    else false

/-- Model of the validity check performed by `std::str::from_utf8`. -/
def utf8Valid (l : List Nat) : Bool := utf8ValidGo l.length l

/-! ## SHA-1 (the `sha1` crate)

Modelled from the spec: the program hashes with the external `sha1` crate
(`Sha1::new` / `write_all` / `finalize`), whose code is not part of this
repository; the function below is SHA-1 as specified by FIPS 180-1,
over byte lists, with all word arithmetic taken modulo `2^32`. -/

/-- Reduction modulo `2^32` (SHA-1 word arithmetic). -/
def m32 (x : Nat) : Nat := x % 4294967296

/-- Left rotation of a 32-bit word by `s` places. -/
def rotl (s x : Nat) : Nat := m32 ((x <<< s) ||| (x >>> (32 - s)))

/-- Big-endian bytes of `v`, exactly `k` bytes wide. -/
def beBytes : Nat → Nat → List Nat
  | 0, _ => []
  | k + 1, v => beBytes k (v / 256) ++ [v % 256]

/-- Groups a byte list into 32-bit big-endian words (whole groups of 4). -/
def bytesToWords : List Nat → List Nat
  | b0 :: b1 :: b2 :: b3 :: rest => (((b0 * 256 + b1) * 256 + b2) * 256 + b3) :: bytesToWords rest
  | _ => []

/-- One step of the SHA-1 message-schedule extension. -/
def sha1NextWord (ws : List Nat) : Nat :=
  let n := ws.length
  rotl 1 ((ws.getD (n - 3) 0) ^^^ (ws.getD (n - 8) 0) ^^^ (ws.getD (n - 14) 0) ^^^ (ws.getD (n - 16) 0))

/-- Extends the 16 block words by `k` further schedule words. -/
def sha1Extend (ws : List Nat) : Nat → List Nat
  | 0 => ws
  | k + 1 => sha1Extend (ws ++ [sha1NextWord ws]) k

/-- The SHA-1 round function (choice / parity / majority, by round index). -/
def sha1F (i b c d : Nat) : Nat :=
  if i < 20 then (b &&& c) ||| ((b ^^^ 4294967295) &&& d)
  else if i < 40 then b ^^^ c ^^^ d
  else if i < 60 then (b &&& c) ||| (b &&& d) ||| (c &&& d)
  else b ^^^ c ^^^ d

/-- The SHA-1 round constants, by round index. -/
def sha1K (i : Nat) : Nat :=
  if i < 20 then 0x5A827999
  else if i < 40 then 0x6ED9EBA1
  else if i < 60 then 0x8F1BBCDC
  else 0xCA62C1D6

/-- The 80 SHA-1 rounds over the schedule words, starting at round `i`. -/
def sha1Rounds : Nat → List Nat → Nat × Nat × Nat × Nat × Nat → Nat × Nat × Nat × Nat × Nat
  | _, [], st => st
  | i, w :: ws, (a, b, c, d, e) =>
    let temp := m32 (rotl 5 a + sha1F i b c d + e + sha1K i + w)
    sha1Rounds (i + 1) ws (temp, a, rotl 30 b, c, d)

/-- Compression of one 64-byte block into the running hash state. -/
def sha1Block (h : Nat × Nat × Nat × Nat × Nat) (block : List Nat) :
    Nat × Nat × Nat × Nat × Nat :=
  let ws := sha1Extend (bytesToWords block) 64
  match h, sha1Rounds 0 ws h with
  | (h0, h1, h2, h3, h4), (a, b, c, d, e) =>
    (m32 (h0 + a), m32 (h1 + b), m32 (h2 + c), m32 (h3 + d), m32 (h4 + e))

/-- SHA-1 padding: `0x80`, zeros to 56 mod 64, then the bit length as eight
big-endian bytes. -/
def sha1Pad (msg : List Nat) : List Nat :=
  msg ++ 128 :: List.replicate ((119 - msg.length % 64) % 64) 0 ++ beBytes 8 (8 * msg.length)

/-- Splits a padded message into 64-byte blocks. -/
def toBlocks (l : List Nat) : List (List Nat) :=
  if l = [] then [] else l.take 64 :: toBlocks (l.drop 64)
  termination_by l.length
  decreasing_by
    rename_i h
    simp only [List.length_drop]
    have hl : 0 < l.length := List.length_pos.mpr h
    omega

/-- The 20-byte SHA-1 digest of a byte list. -/
def sha1Bytes (msg : List Nat) : List Nat :=
  match (toBlocks (sha1Pad msg)).foldl sha1Block
      (0x67452301, 0xEFCDAB89, 0x98BADCFE, 0x10325476, 0xC3D2E1F0) with
  | (h0, h1, h2, h3, h4) =>
    beBytes 4 h0 ++ beBytes 4 h1 ++ beBytes 4 h2 ++ beBytes 4 h3 ++ beBytes 4 h4

/-- Model of `hex::encode(Sha1::digest(msg))` — the 40 lowercase hex
characters (as ASCII bytes) used as an object hash. -/
def sha1Hex (msg : List Nat) : List Nat := hexEncode (sha1Bytes msg)

/-! ## Data model (`BlobObject`, `TreeEntry`, `TreeObject`, `GitObject`) -/

/-- `TreeEntry` of `src/main.rs`: `mode: u32` as a `Nat`, `name: String` and
`sha: String` (40 hex characters) as ASCII byte lists. -/
structure TreeEntry where
  mode : Nat
  name : List Nat
  sha : List Nat
  deriving Repr, DecidableEq

/-- `GitObject` of `src/main.rs`.  `commit` carries no payload here because
the program never parses a commit body (`read_git_object` bails first), and
no claim concerns commit packing. -/
inductive GitObject where
  | blob (data : List Nat)
  | tree (entries : List TreeEntry)
  | commit
  deriving Repr, DecidableEq

/-- `BlobObject::pack`: `"blob " ++ decimal(len) ++ NUL ++ data`. -/
def blobPack (data : List Nat) : List Nat :=
  [98, 108, 111, 98, 32] ++ natToDecBytes data.length ++ 0 :: data

/-- `TreeEntry::pack`: `decimal(mode) ++ " " ++ name ++ NUL ++ hex::decode(sha)`.
`hex::decode(&self.sha).unwrap()` panics on a malformed `sha`, modelled as
`Err.panic`. -/
def treeEntryPack (e : TreeEntry) : Except Err (List Nat) :=
  match hexDecode e.sha with
  | none => .error .panic
  | some raw => .ok (natToDecBytes e.mode ++ 32 :: e.name ++ 0 :: raw)

/-- The sort key of the `Ord for TreeEntry` impl: the entry's name, with `/`
appended when `mode == 040000` (the Rust literal `040000` is decimal 40000). -/
def sortKey (e : TreeEntry) : List Nat :=
  if e.mode = 40000 then e.name ++ [47] else e.name

/-- Byte-wise lexicographic `≤` on byte lists (Rust's `Ord` for `String`
compares the UTF-8 bytes; a strict prefix sorts first). -/
def lexLe : List Nat → List Nat → Bool
  | [], _ => true
  | _ :: _, [] => false
  | a :: as, b :: bs => if a < b then true else if b < a then false else lexLe as bs

/-- The comparator of `impl Ord for TreeEntry` as a boolean `≤`. -/
def entryLe (a b : TreeEntry) : Bool := lexLe (sortKey a) (sortKey b)

/-- `self.entries.sort()` of `TreeObject::pack`: Rust's `Vec::sort` is a
stable sort by the `Ord` impl, modelled by the (stable) `List.mergeSort`. -/
def sortEntries (es : List TreeEntry) : List TreeEntry := es.mergeSort entryLe

/-- Packs each entry of a list in order, concatenating the results
(the `map`/`concat` of `TreeObject::pack`); a panic inside propagates. -/
def packEntries : List TreeEntry → Except Err (List Nat)
  | [] => .ok []
  | e :: rest =>
    match treeEntryPack e, packEntries rest with
    | .ok b, .ok bs => .ok (b ++ bs)
    | .error er, _ => .error er
    | _, .error er => .error er

/-- `TreeObject::pack`: sort the entries, pack each, and wrap as
`"tree " ++ decimal(len) ++ NUL ++ packed`. -/
def treeObjectPack (entries : List TreeEntry) : Except Err (List Nat) :=
  match packEntries (sortEntries entries) with
  | .error er => .error er
  | .ok packed => .ok ([116, 114, 101, 101, 32] ++ natToDecBytes packed.length ++ 0 :: packed)

/-! ## Object parsing (`read_tree_entry`, `read_git_object`)

The source reads from a `BufReader<ZlibDecoder<File>>`; here the
decompressed stream is a byte list, consumed from the front. -/

/-- `read_tree_entry`: mode token up to `' '` (UTF-8 check, `u32` parse),
name up to NUL, then exactly 20 raw sha bytes re-encoded as hex.  Returns
the entry, the total byte count consumed, and the rest of the stream.
The two `strip_suffix(..).unwrap()` calls panic when the delimiter was
never found (end of stream); `read_exact` returns an `UnexpectedEof`
error when fewer than 20 bytes remain. -/
def readTreeEntry (input : List Nat) : Except Err (TreeEntry × Nat × List Nat) :=
  match stripSuffix1 32 (readUntil 32 input).1 with
  | none => .error .panic
  | some modeBytes =>
    if utf8Valid modeBytes then
      match parseDecBounded 4294967296 modeBytes with
      | none => .error .notANumber
      | some mode =>
        match stripSuffix1 0 (readUntil 0 (readUntil 32 input).2).1 with
        | none => .error .panic
        | some nameBytes =>
          if (readUntil 0 (readUntil 32 input).2).2.length < 20 then .error .ioEof
          else if utf8Valid nameBytes then
            .ok (⟨mode, nameBytes, hexEncode ((readUntil 0 (readUntil 32 input).2).2.take 20)⟩,
              (readUntil 32 input).1.length + (readUntil 0 (readUntil 32 input).2).1.length + 20,
              (readUntil 0 (readUntil 32 input).2).2.drop 20)
          else .error .notUtf8
    else .error .notUtf8

/-- `readUntil` splits the stream: chunk and rest concatenate back to it. -/
theorem readUntil_concat (d : Nat) (l : List Nat) :
    (readUntil d l).1 ++ (readUntil d l).2 = l := by
  induction l with
  | nil => rfl
  | cons b rest ih =>
    by_cases hb : b = d
    · simp [readUntil, hb]
    · simp [readUntil, hb, ih]

/-- A successfully parsed tree entry consumes at least one byte of the
stream (in fact at least 22): the basis of the parse loop's termination. -/
theorem readTreeEntry_rest_lt (input : List Nat) (e : TreeEntry) (n : Nat)
    (rest : List Nat) (h : readTreeEntry input = .ok (e, n, rest)) :
    rest.length < input.length := by
  have h1 := readUntil_concat 32 input
  have h2 := readUntil_concat 0 (readUntil 32 input).2
  unfold readTreeEntry at h
  split at h
  · exact absurd h (by simp)
  · rename_i modeBytes hs1
    split at h
    · split at h
      · exact absurd h (by simp)
      · split at h
        · exact absurd h (by simp)
        · split at h
          · exact absurd h (by simp)
          · rename_i hlen
            split at h
            · have hrest : rest = (readUntil 0 (readUntil 32 input).2).2.drop 20 := by
                injection h with h'
                injection h' with _ h''
                injection h'' with _ h3
                exact h3.symm
              have hne : (readUntil 32 input).1 ≠ [] := by
                intro hnil
                rw [hnil] at hs1
                simp [stripSuffix1] at hs1
              have hlen1 : 0 < (readUntil 32 input).1.length := List.length_pos.mpr hne
              have hin : (readUntil 32 input).1.length +
                  ((readUntil 0 (readUntil 32 input).2).1.length +
                    (readUntil 0 (readUntil 32 input).2).2.length) = input.length := by
                calc (readUntil 32 input).1.length +
                    ((readUntil 0 (readUntil 32 input).2).1.length +
                      (readUntil 0 (readUntil 32 input).2).2.length)
                    = (readUntil 32 input).1.length +
                      ((readUntil 0 (readUntil 32 input).2).1 ++
                        (readUntil 0 (readUntil 32 input).2).2).length := by simp
                  _ = (readUntil 32 input).1.length + (readUntil 32 input).2.length := by rw [h2]
                  _ = ((readUntil 32 input).1 ++ (readUntil 32 input).2).length := by simp
                  _ = input.length := by rw [h1]
              rw [hrest]
              simp only [List.length_drop]
              omega
            · exact absurd h (by simp)
    · exact absurd h (by simp)

/-- The entry-reading loop of `read_git_object`'s tree branch:
`while remaining > 0 { let (entry, n) = read_tree_entry(reader)?; entries.push(entry); remaining -= n; }`.
`remaining -= n` is `usize` arithmetic: in a release build it wraps modulo
`2^64` (modelled here); in a debug build it panics when `n > remaining` —
either way an overrun never produces a typed error at this subtraction. -/
def treeLoop (remaining : Nat) (input : List Nat) : Except Err (List TreeEntry) :=
  if remaining = 0 then .ok []
  else
    match h : readTreeEntry input with
    | .error er => .error er
    | .ok (entry, n, rest) =>
      match treeLoop ((remaining + (18446744073709551616 - n % 18446744073709551616)) %
          18446744073709551616) rest with
      | .error er => .error er
      | .ok es => .ok (entry :: es)
  termination_by input.length
  decreasing_by exact readTreeEntry_rest_lt input entry n rest h

/-- `read_git_object` over a decompressed byte stream.  The type token is
read up to the first `' '` (a missing space panics the `strip_suffix`
unwrap) and classified by `starts_with` against `"blob"`, `"tree"` and the
misspelled `"comit"`; an unrecognized token is reported as unsupported when
it is valid UTF-8 and as a UTF-8 error otherwise.  The size token is read
up to NUL and parsed as `usize`.  A blob requires the remaining byte count
to equal the declared size; a tree runs `treeLoop`; a commit bails
unimplemented. -/
def parseObject (input : List Nat) : Except Err GitObject :=
  match stripSuffix1 32 (readUntil 32 input).1 with
  | none => .error .panic
  | some token =>
    if [98, 108, 111, 98].isPrefixOf token ∨ [116, 114, 101, 101].isPrefixOf token ∨
        [99, 111, 109, 105, 116].isPrefixOf token then
      match stripSuffix1 0 (readUntil 0 (readUntil 32 input).2).1 with
      | none => .error .panic
      | some sizeBytes =>
        if utf8Valid sizeBytes then
          match parseDecBounded 18446744073709551616 sizeBytes with
          | none => .error .notANumber
          | some size =>
            if [98, 108, 111, 98].isPrefixOf token then
              if (readUntil 0 (readUntil 32 input).2).2.length = size then
                .ok (.blob (readUntil 0 (readUntil 32 input).2).2)
              else .error (.sizeMismatch size (readUntil 0 (readUntil 32 input).2).2.length)
            else if [116, 114, 101, 101].isPrefixOf token then
              match treeLoop size (readUntil 0 (readUntil 32 input).2).2 with
              | .error er => .error er
              | .ok entries => .ok (.tree entries)
            else .error .unimplementedCommit
        else .error .notUtf8
    else if utf8Valid (readUntil 32 input).1 then .error .unsupportedType
    else .error .notUtf8

/-! ## Object store (`write_object_file` and the on-disk layout)

The filesystem under `.git/objects` is modelled as a `Store`: the set of
created two-character subdirectories and an association list from file path
to file content (newest first, so re-creating a file overwrites). -/

/-- Modelled from the spec: zlib deflate/inflate come from the external
`flate2` crate, not from this repository; the only property the program
relies on is that the coding is lossless, so it is modelled as the
identity coding on byte lists. -/
def zlibCompress (data : List Nat) : List Nat := data

/-- Modelled from the spec: inverse of `zlibCompress` (see there). -/
def zlibDecompress (data : List Nat) : List Nat := data

/-- The object database: created subdirectories of `.git/objects`, and the
files under it, keyed by `dirname ++ "/" ++ filename`. -/
structure Store where
  dirs : List (List Nat)
  files : List (List Nat × List Nat)
  deriving Repr, DecidableEq

/-- The store of a fresh repository: no object subdirectories, no objects. -/
def emptyStore : Store := ⟨[], []⟩

/-- The path of an object file relative to `.git/objects`: the first two
hash characters, `/`, then the remaining 38. -/
def objPath (hash : List Nat) : List Nat := hash.take 2 ++ 47 :: hash.drop 2

/-- `write_object_file`: hash the packed bytes, then `fs::create_dir` the
two-character subdirectory — unconditionally, so it fails with an
already-exists error when that subdirectory was created before — then
create the object file with the zlib-compressed bytes and return the hex
hash. -/
def writeObjectFile (packed : List Nat) (st : Store) : Except Err (List Nat × Store) :=
  let hash := sha1Hex packed
  let dirname := hash.take 2
  if dirname ∈ st.dirs then .error .dirExists
  else .ok (hash, ⟨dirname :: st.dirs, (objPath hash, zlibCompress packed) :: st.files⟩)

/-- The read-back path of `cat-file`/`ls-tree` up to decompression: locate
the object file at the hash-derived path and inflate its contents. -/
def readObject (hash : List Nat) (st : Store) : Except Err (List Nat) :=
  match st.files.lookup (objPath hash) with
  | none => .error .noSuchFile
  | some c => .ok (zlibDecompress c)

/-- `hash_object` on an existing file: read its bytes, pack them as a blob
and write the packed object to the store. -/
def hashObject (content : List Nat) (st : Store) : Except Err (List Nat × Store) :=
  writeObjectFile (blobPack content) st

/-! ## Tree builder (`write_tree`) -/

/-- A directory entry of the live filesystem as `write_tree` observes it:
`file_type().is_file()` / `is_dir()` / `is_symlink()`, the permission bits
of `metadata().mode()` for files, and the content.  `other` covers every
remaining kind (device, socket, ...). -/
inductive FsEntry where
  | file (name : List Nat) (perm : Nat) (content : List Nat)
  | dir (name : List Nat) (children : List FsEntry)
  | symlink (name : List Nat)
  | other (name : List Nat)

/-- The mode computation of `write_tree` (lines 393-402 of `src/main.rs`):
directory `040000`, symlink `120000`, file with an execute bit `100755`,
else `100644` — all decimal Rust literals (`040000` is decimal 40000).
The symlink branch is present in the source but unreachable there, because
the `sha` computation above it has already bailed on symlinks. -/
def entryMode (isDir isSymlink : Bool) (permBits : Nat) : Nat :=
  if isDir then 40000
  else if isSymlink then 120000
  else if permBits &&& 73 ≠ 0 then 100755
  else 100644

/-- The name `".git"` as bytes (skipped at every directory level). -/
def dotGit : List Nat := [46, 103, 105, 116]

mutual

/-- The entry loop of `write_tree`: for each directory entry compute its
`sha` — hashing a file, recursing into a subdirectory (skipping `".git"`),
and bailing `"Neither file nor dir"` on anything else, symlinks included —
then its mode, and collect the tree entries in listing order. -/
def writeTreeGo : List FsEntry → Store → Except Err (List TreeEntry × Store)
  | [], st => .ok ([], st)
  | .file name perm content :: rest, st =>
    match hashObject content st with
    | .error er => .error er
    | .ok (sha, st1) =>
      match writeTreeGo rest st1 with
      | .error er => .error er
      | .ok (tes, st2) => .ok (⟨entryMode false false perm, name, sha⟩ :: tes, st2)
  | .dir name children :: rest, st =>
    if name = dotGit then writeTreeGo rest st
    else
      match writeTree children st with
      | .error er => .error er
      | .ok (sha, st1) =>
        match writeTreeGo rest st1 with
        | .error er => .error er
        | .ok (tes, st2) => .ok (⟨entryMode true false 0, name, sha⟩ :: tes, st2)
  | .symlink _ :: _, _ => .error .neitherFileNorDir
  | .other _ :: _, _ => .error .neitherFileNorDir

/-- `write_tree` on a directory given by its listing: run the entry loop,
pack the collected entries as a tree object and write it to the store,
returning the tree's hash. -/
def writeTree (children : List FsEntry) (st : Store) : Except Err (List Nat × Store) :=
  match writeTreeGo children st with
  | .error er => .error er
  | .ok (tes, st1) =>
    match treeObjectPack tes with
    | .error er => .error er
    | .ok packed => writeObjectFile packed st1

end

/-! ## `cat-file -p` -/

/-- The `CatFile` command on a stored hash: open the object file at the
hash-derived path, inflate and parse it; print a blob's payload as text —
which requires the payload to be valid UTF-8 (`std::str::from_utf8(&blob.data)?`)
— and bail on any other object kind.  The printed bytes are returned. -/
def catFile (objectHash : List Nat) (st : Store) : Except Err (List Nat) :=
  match st.files.lookup (objPath objectHash) with
  | none => .error .noSuchFile
  | some c =>
    match parseObject (zlibDecompress c) with
    | .error er => .error er
    | .ok (.blob data) => if utf8Valid data then .ok data else .error .notUtf8
    | .ok _ => .error .catFileNotBlob

/-! ## Helper lemmas -/

/-- `readUntil` on a stream whose first delimiter occurrence is after `pre`
returns `pre` with the delimiter, and the rest of the stream. -/
theorem readUntil_split (d : Nat) (pre post : List Nat) (h : d ∉ pre) :
    readUntil d (pre ++ d :: post) = (pre ++ [d], post) := by
  induction pre with
  | nil => simp [readUntil]
  | cons b rest ih =>
    have hbd : ¬b = d := by
      intro he
      exact h (he ▸ List.mem_cons_self b rest)
    have hdr : d ∉ rest := fun hm => h (List.mem_cons_of_mem b hm)
    simp [readUntil, hbd, ih hdr]

/-- Stripping the delimiter just appended gives back the prefix. -/
theorem stripSuffix1_concat (d : Nat) (pre : List Nat) :
    stripSuffix1 d (pre ++ [d]) = some pre := by
  unfold stripSuffix1
  rw [List.getLast?_concat]
  simp [List.dropLast_concat]

/-- With zero to render, the digit loop returns the accumulator whatever
the fuel. -/
theorem natToDecBytesAux_zero (fuel : Nat) (acc : List Nat) :
    natToDecBytesAux fuel 0 acc = acc := by
  cases fuel with
  | zero => rfl
  | succ f => simp [natToDecBytesAux]

/-- Reading back the digits the digit loop wrote: with enough fuel,
parsing `natToDecBytesAux fuel n l` continues exactly like parsing `l`
with accumulated value `n`. -/
theorem natToDecBytesAux_go (fuel : Nat) :
    ∀ (n : Nat) (l : List Nat), n ≤ fuel →
      digitsValGo 0 (natToDecBytesAux fuel n l) = digitsValGo n l := by
  induction fuel with
  | zero =>
    intro n l h
    have hn : n = 0 := by omega
    subst hn
    rfl
  | succ f ih =>
    intro n l h
    by_cases hn : n = 0
    · subst hn
      simp [natToDecBytesAux]
    · have hstep : natToDecBytesAux (f + 1) n l =
          natToDecBytesAux f (n / 10) ((48 + n % 10) :: l) := by
        simp [natToDecBytesAux, hn]
      rw [hstep, ih (n / 10) ((48 + n % 10) :: l) (by omega)]
      have hdig : 48 ≤ 48 + n % 10 ∧ 48 + n % 10 ≤ 57 := by omega
      rw [digitsValGo, if_pos hdig]
      have harg : n / 10 * 10 + (48 + n % 10 - 48) = n := by omega
      rw [harg]

/-- Every byte the digit loop writes is an ASCII digit (or was already in
the accumulator). -/
theorem natToDecBytesAux_mem (fuel : Nat) :
    ∀ (n : Nat) (l : List Nat) (b : Nat), b ∈ natToDecBytesAux fuel n l →
      (48 ≤ b ∧ b ≤ 57) ∨ b ∈ l := by
  induction fuel with
  | zero =>
    intro n l b hb
    exact Or.inr hb
  | succ f ih =>
    intro n l b hb
    by_cases hn : n = 0
    · subst hn
      simp [natToDecBytesAux] at hb
      exact Or.inr hb
    · rw [show natToDecBytesAux (f + 1) n l =
          natToDecBytesAux f (n / 10) ((48 + n % 10) :: l) by simp [natToDecBytesAux, hn]] at hb
      rcases ih (n / 10) ((48 + n % 10) :: l) b hb with hd | hm
      · exact Or.inl hd
      · rcases List.mem_cons.mp hm with he | hl
        · exact Or.inl (by omega)
        · exact Or.inr hl

/-- The rendered digits of a number are ASCII digits. -/
theorem natToDecBytes_digits (n : Nat) :
    ∀ b ∈ natToDecBytes n, 48 ≤ b ∧ b ≤ 57 := by
  intro b hb
  unfold natToDecBytes at hb
  by_cases hn : n = 0
  · rw [if_pos hn] at hb
    simp at hb
    omega
  · rw [if_neg hn] at hb
    rcases natToDecBytesAux_mem n n [] b hb with hd | hm
    · exact hd
    · exact absurd hm (List.not_mem_nil b)

/-- With positive value and enough fuel the digit loop writes at least one
digit. -/
theorem natToDecBytesAux_ne_nil (fuel : Nat) :
    ∀ (n : Nat) (l : List Nat), n ≠ 0 → n ≤ fuel → natToDecBytesAux fuel n l ≠ [] := by
  induction fuel with
  | zero =>
    intro n l hn h
    omega
  | succ f ih =>
    intro n l hn h
    rw [show natToDecBytesAux (f + 1) n l =
        natToDecBytesAux f (n / 10) ((48 + n % 10) :: l) by simp [natToDecBytesAux, hn]]
    by_cases hq : n / 10 = 0
    · rw [hq, natToDecBytesAux_zero]
      simp
    · exact ih (n / 10) ((48 + n % 10) :: l) hq (by omega)

/-- A number renders to at least one digit. -/
theorem natToDecBytes_ne_nil (n : Nat) : natToDecBytes n ≠ [] := by
  unfold natToDecBytes
  by_cases hn : n = 0
  · simp [hn]
  · rw [if_neg hn]
    exact natToDecBytesAux_ne_nil n n [] hn (Nat.le_refl n)

/-- Round trip of the decimal codec on digit runs. -/
theorem digitsVal_natToDecBytes (n : Nat) : digitsVal (natToDecBytes n) = some n := by
  obtain ⟨a, l', hl⟩ := List.exists_cons_of_ne_nil (natToDecBytes_ne_nil n)
  have hgo : digitsValGo 0 (natToDecBytes n) = some n := by
    unfold natToDecBytes
    by_cases hn : n = 0
    · subst hn
      decide
    · rw [if_neg hn, natToDecBytesAux_go n n [] (Nat.le_refl n)]
      rfl
  rw [hl] at hgo ⊢
  exact hgo

/-- Round trip of the decimal codec through the integer parser, below the
type's bound. -/
theorem parseDecBounded_natToDecBytes (bound n : Nat) (h : n < bound) :
    parseDecBounded bound (natToDecBytes n) = some n := by
  have hd := natToDecBytes_digits n
  obtain ⟨a, l', hl⟩ := List.exists_cons_of_ne_nil (natToDecBytes_ne_nil n)
  have ha : 48 ≤ a ∧ a ≤ 57 := hd a (by rw [hl]; exact List.mem_cons_self a l')
  have hbody : digitsValBounded bound (natToDecBytes n) = some n := by
    unfold digitsValBounded
    rw [digitsVal_natToDecBytes n]
    simp [h]
  rw [hl] at hbody ⊢
  show (if a = 43 then digitsValBounded bound l'
    else if a = 45 then
      match digitsValBounded bound l' with
      | some v => if v = 0 then some 0 else none
      | none => none
    else digitsValBounded bound (a :: l')) = some n
  rw [if_neg (by omega), if_neg (by omega)]
  exact hbody

/-- The validation loop accepts a list of ASCII bytes, given enough fuel. -/
theorem utf8ValidGo_ascii (fuel : Nat) :
    ∀ l : List Nat, (∀ b ∈ l, b ≤ 127) → l.length ≤ fuel → utf8ValidGo fuel l = true := by
  induction fuel with
  | zero =>
    intro l _ hlen
    have hl : l = [] := List.eq_nil_of_length_eq_zero (by omega)
    subst hl
    rfl
  | succ f ih =>
    intro l hall hlen
    cases l with
    | nil => rfl
    | cons b rest =>
      have hb : b ≤ 127 := hall b (List.mem_cons_self b rest)
      rw [utf8ValidGo.eq_def]
      simp only [if_pos hb]
      exact ih rest (fun x hx => hall x (List.mem_cons_of_mem b hx)) (by simp at hlen; omega)

/-- A list of ASCII bytes is valid UTF-8. -/
theorem utf8Valid_ascii (l : List Nat) (h : ∀ b ∈ l, b ≤ 127) : utf8Valid l = true :=
  utf8ValidGo_ascii l.length l h (Nat.le_refl _)

/-- `starts_with` holds of a list against itself extended. -/
theorem isPrefixOf_append_self (l t : List Nat) : l.isPrefixOf (l ++ t) = true :=
  List.isPrefixOf_iff_prefix.mpr ⟨t, rfl⟩

/-- A declared entry-byte count of zero ends the tree parse loop at once. -/
theorem treeLoop_zero (input : List Nat) : treeLoop 0 input = .ok [] := by
  rw [treeLoop.eq_def]
  simp

/-- Parsing a hand-built blob image whose header declares `N` while the
payload is `P`: success exactly when the payload length matches the
declared size, a typed size-mismatch error otherwise. -/
theorem parse_blobHeader (N : Nat) (P : List Nat) (hN : N < 18446744073709551616) :
    parseObject ([98, 108, 111, 98, 32] ++ natToDecBytes N ++ 0 :: P) =
      if P.length = N then .ok (.blob P) else .error (.sizeMismatch N P.length) := by
  have h0 : (0 : Nat) ∉ natToDecBytes N := by
    intro hm
    have := natToDecBytes_digits N 0 hm
    omega
  have h1 : readUntil 32 ([98, 108, 111, 98] ++ 32 :: (natToDecBytes N ++ 0 :: P)) =
      ([98, 108, 111, 98] ++ [32], natToDecBytes N ++ 0 :: P) :=
    readUntil_split 32 [98, 108, 111, 98] (natToDecBytes N ++ 0 :: P) (by decide)
  have h2 : readUntil 0 (natToDecBytes N ++ 0 :: P) = (natToDecBytes N ++ [0], P) :=
    readUntil_split 0 (natToDecBytes N) P h0
  have hutf : utf8Valid (natToDecBytes N) = true :=
    utf8Valid_ascii _ (fun b hb => by have := natToDecBytes_digits N b hb; omega)
  have hparse := parseDecBounded_natToDecBytes 18446744073709551616 N hN
  show parseObject ([98, 108, 111, 98] ++ 32 :: (natToDecBytes N ++ 0 :: P)) = _
  unfold parseObject
  rw [h1]
  simp only [h2, stripSuffix1_concat, hutf, hparse]
  have hblob : [98, 108, 111, 98].isPrefixOf [98, 108, 111, 98] = true := by decide
  rw [if_pos (Or.inl hblob), if_pos trivial, if_pos hblob]

/-- `BlobObject::pack` parses back to the blob it packed. -/
theorem parse_blobPack (P : List Nat) (h : P.length < 18446744073709551616) :
    parseObject (blobPack P) = .ok (.blob P) := by
  show parseObject ([98, 108, 111, 98, 32] ++ natToDecBytes P.length ++ 0 :: P) = _
  rw [parse_blobHeader P.length P h, if_pos rfl]

/-- Byte-wise lexicographic `≤` is transitive. -/
theorem lexLe_trans : ∀ a b c : List Nat, lexLe a b = true → lexLe b c = true →
    lexLe a c = true := by
  intro a
  induction a with
  | nil => intro b c _ _; rfl
  | cons x as ih =>
    intro b c h1 h2
    cases b with
    | nil => simp [lexLe] at h1
    | cons y bs =>
      cases c with
      | nil => simp [lexLe] at h2
      | cons z cs =>
        simp only [lexLe] at h1 h2 ⊢
        by_cases hxy : x < y
        · by_cases hyz : y < z
          · rw [if_pos (by omega)]
          · by_cases hzy : z < y
            · rw [if_neg hyz, if_pos hzy] at h2
              exact absurd h2 (by simp)
            · have hyzeq : y = z := by omega
              subst hyzeq
              rw [if_pos hxy]
        · by_cases hyx : y < x
          · rw [if_neg hxy, if_pos hyx] at h1
            exact absurd h1 (by simp)
          · have hxyeq : x = y := by omega
            subst hxyeq
            rw [if_neg (by omega), if_neg (by omega)] at h1
            by_cases hxz : x < z
            · rw [if_pos hxz]
            · by_cases hzx : z < x
              · rw [if_neg hxz, if_pos hzx] at h2
                exact absurd h2 (by simp)
              · have hxzeq : x = z := by omega
                subst hxzeq
                rw [if_neg (by omega), if_neg (by omega)] at h2 ⊢
                exact ih bs cs h1 h2

/-- Byte-wise lexicographic `≤` is total. -/
theorem lexLe_total : ∀ a b : List Nat, (lexLe a b || lexLe b a) = true := by
  intro a
  induction a with
  | nil => intro b; rfl
  | cons x as ih =>
    intro b
    cases b with
    | nil => rfl
    | cons y bs =>
      simp only [lexLe]
      rcases Nat.lt_trichotomy x y with h | h | h
      · simp [h]
      · subst h
        simp only [Nat.lt_irrefl, if_false]
        exact ih bs
      · simp [h, Nat.lt_asymm h]

/-- The tree-entry comparator is transitive. -/
theorem entryLe_trans (a b c : TreeEntry) (h1 : entryLe a b = true)
    (h2 : entryLe b c = true) : entryLe a c = true :=
  lexLe_trans (sortKey a) (sortKey b) (sortKey c) h1 h2

/-- The tree-entry comparator is total. -/
theorem entryLe_total (a b : TreeEntry) : (entryLe a b || entryLe b a) = true :=
  lexLe_total (sortKey a) (sortKey b)

/-- `TreeObject::pack`'s sort leaves the entries pairwise ordered under the
comparator of the `Ord` impl. -/
theorem sortEntries_pairwise (es : List TreeEntry) :
    (sortEntries es).Pairwise fun a b => entryLe a b = true :=
  List.sorted_mergeSort entryLe_trans entryLe_total es

/-! ## The claims -/

attribute [local semireducible] List.mergeSort List.merge

/-- C1: For every tree entry produced by the tree builder and packed by the
codec, the mode field is emitted byte-for-byte as a fixed decimal digit
string: `"40000"` for a directory, `"100644"` for a regular file without
execute bits, `"100755"` for a regular file with any execute bit set, and
`"120000"` for a symlink — `entryMode` embeds the mode computation of
`write_tree`, and `treeEntryPack` emits `decimal(mode)` as the first field
of the packed entry bytes. -/
theorem claim1_mode_strings :
    (∀ (s : Bool) (p : Nat), natToDecBytes (entryMode true s p) = [52, 48, 48, 48, 48]) ∧
    (∀ p : Nat, natToDecBytes (entryMode false true p) = [49, 50, 48, 48, 48, 48]) ∧
    (∀ p : Nat, p &&& 73 ≠ 0 →
      natToDecBytes (entryMode false false p) = [49, 48, 48, 55, 53, 53]) ∧
    (∀ p : Nat, p &&& 73 = 0 →
      natToDecBytes (entryMode false false p) = [49, 48, 48, 54, 52, 52]) ∧
    (∀ (e : TreeEntry) (raw : List Nat), hexDecode e.sha = some raw →
      treeEntryPack e = .ok (natToDecBytes e.mode ++ 32 :: e.name ++ 0 :: raw)) := by
  refine ⟨fun s p => ?_, fun p => ?_, fun p hp => ?_, fun p hp => ?_, fun e raw hr => ?_⟩
  · unfold entryMode
    rw [if_pos rfl]
    decide
  · unfold entryMode
    rw [if_neg (by decide), if_pos rfl]
    decide
  · unfold entryMode
    rw [if_neg (by decide), if_neg (by decide), if_pos hp]
    decide
  · unfold entryMode
    rw [if_neg (by decide), if_neg (by decide), if_neg (not_not_intro hp)]
    decide
  · simp [treeEntryPack, hr]

/-- Witness for C1 at concrete permission bits: `0o111`-bearing `73` maps to
`"100755"` and plain `0o644` (`420`) maps to `"100644"`. -/
theorem claim1_mode_strings_w :
    ((73 : Nat) &&& 73 ≠ 0 ∧ natToDecBytes (entryMode false false 73) = [49, 48, 48, 55, 53, 53]) ∧
    ((420 : Nat) &&& 73 = 0 ∧
      natToDecBytes (entryMode false false 420) = [49, 48, 48, 54, 52, 52]) :=
  ⟨⟨by decide, claim1_mode_strings.2.2.1 73 (by decide)⟩,
    ⟨by decide, claim1_mode_strings.2.2.2.1 420 (by decide)⟩⟩

/-- C2 (code evaluation): the type token `commit` is rejected as
unsupported, because the classifier checks `starts_with("comit")` and
`commit` does not start with `comit`; the misspelled token `comit` itself
is the one dispatched to the commit branch.  The decompressed images are
`"commit 0\x00"` and `"comit 0\x00"`. -/
theorem claim2_commit_token_eval :
    parseObject [99, 111, 109, 109, 105, 116, 32, 48, 0] = .error .unsupportedType ∧
    parseObject [99, 111, 109, 105, 116, 32, 48, 0] = .error .unimplementedCommit := by
  constructor <;> decide

/-- C3 (counterexample): a directory whose listing is a single symlink named
`s` makes `write_tree` fail with the fatal `"Neither file nor dir"` error —
the symlink is not recorded as a leaf entry with mode `120000`, because the
`sha` computation bails on anything that is neither a file nor a directory
before the mode expression's symlink branch can be reached. -/
theorem claim3_symlink_cex :
    writeTree [.symlink [115]] emptyStore = .error .neitherFileNorDir := by
  rw [writeTree.eq_def]
  rw [writeTreeGo.eq_def]

/-- C3 (amended): a symlink directory entry, exactly like an entry of any
other unsupported kind (device, socket, ...), makes `write_tree` abort with
the fatal `"Neither file nor dir"` error, whatever follows it in the
listing and whatever the store holds; no tree entry is recorded for it and
the `120000` branch of the mode computation is never reached. -/
theorem claim3_symlink_amended :
    (∀ (name : List Nat) (rest : List FsEntry) (st : Store),
      writeTree (.symlink name :: rest) st = .error .neitherFileNorDir) ∧
    (∀ (name : List Nat) (rest : List FsEntry) (st : Store),
      writeTree (.other name :: rest) st = .error .neitherFileNorDir) := by
  constructor <;>
    (intro name rest st
     rw [writeTree.eq_def]
     rw [writeTreeGo.eq_def])

/-- C4 (counterexample): a tree image `"tree 5\x00"` followed by a 28-byte
entry record overruns the declared entry-section size 5; `read_git_object`
then ends in a panic (`Err.panic`: the wrapped `usize` remainder is
nonzero, the loop reads on past the end of the stream, and the
`strip_suffix` unwrap fails — in a debug build `remaining -= n` itself
panics first), not in a typed truncated-tree parse error. -/
theorem claim4_overrun_cex :
    parseObject ([116, 114, 101, 101, 32, 53, 0, 52, 48, 48, 48, 48, 32, 97, 0] ++
      List.replicate 20 0) = .error .panic := by
  have hloop : treeLoop 5 ([52, 48, 48, 48, 48, 32, 97, 0] ++ List.replicate 20 0) =
      .error .panic := by
    rw [treeLoop.eq_def]
    have hre : readTreeEntry ([52, 48, 48, 48, 48, 32, 97, 0] ++ List.replicate 20 0) =
        .ok (⟨40000, [97], List.replicate 40 48⟩, 28, []) := by decide
    rw [if_neg (by omega), hre]
    dsimp only
    have h2 : (5 + (18446744073709551616 - 28 % 18446744073709551616)) %
        18446744073709551616 = 18446744073709551593 := by norm_num
    rw [h2]
    rw [treeLoop.eq_def]
    rw [if_neg (by omega)]
    have h3 : readTreeEntry ([] : List Nat) = .error .panic := by decide
    rw [h3]
  have h1 : readUntil 32 ([116, 114, 101, 101] ++
      32 :: ([53] ++ 0 :: ([52, 48, 48, 48, 48, 32, 97, 0] ++ List.replicate 20 0))) =
      ([116, 114, 101, 101] ++ [32],
        [53] ++ 0 :: ([52, 48, 48, 48, 48, 32, 97, 0] ++ List.replicate 20 0)) :=
    readUntil_split 32 [116, 114, 101, 101] _ (by decide)
  have h2 : readUntil 0 ([53] ++ 0 :: ([52, 48, 48, 48, 48, 32, 97, 0] ++
      List.replicate 20 0)) =
      ([53] ++ [0], [52, 48, 48, 48, 48, 32, 97, 0] ++ List.replicate 20 0) :=
    readUntil_split 0 [53] _ (by decide)
  have hu : utf8Valid [53] = true := by decide
  have hp : parseDecBounded 18446744073709551616 [53] = some 5 := by decide
  have hbf : [98, 108, 111, 98].isPrefixOf [116, 114, 101, 101] = false := by decide
  have htr : [116, 114, 101, 101].isPrefixOf [116, 114, 101, 101] = true := by decide
  show parseObject ([116, 114, 101, 101] ++
    32 :: ([53] ++ 0 :: ([52, 48, 48, 48, 48, 32, 97, 0] ++ List.replicate 20 0))) = _
  unfold parseObject
  rw [h1]
  simp only [h2, stripSuffix1_concat, hu, hp]
  rw [if_pos (Or.inr (Or.inl htr)), if_pos trivial, if_neg (by simp [hbf]), if_pos htr]
  rw [hloop]

/-- C4 (amended): the tree branch of `read_git_object` loops until the
declared entry-section byte count is consumed (modulo `usize` wrap): a zero
remainder ends the loop at once, and an image whose single 28-byte entry
record exactly matches a declared size of 28 parses successfully; but when
the stream ends with a nonzero remainder left (underrun), the next entry
read panics on the `strip_suffix` unwrap (`Err.panic`) — there is no typed
truncated-tree error. -/
theorem claim4_truncation_amended :
    (∀ input : List Nat, treeLoop 0 input = .ok []) ∧
    (∀ size : Nat, 0 < size → treeLoop size [] = .error .panic) ∧
    parseObject ([116, 114, 101, 101, 32, 50, 56, 0, 52, 48, 48, 48, 48, 32, 97, 0] ++
      List.replicate 20 0) = .ok (.tree [⟨40000, [97], List.replicate 40 48⟩]) := by
  refine ⟨treeLoop_zero, fun size hs => ?_, ?_⟩
  · rw [treeLoop.eq_def]
    rw [if_neg (by omega)]
    have h3 : readTreeEntry ([] : List Nat) = .error .panic := by decide
    rw [h3]
  · have hloop : treeLoop 28 ([52, 48, 48, 48, 48, 32, 97, 0] ++ List.replicate 20 0) =
        .ok [⟨40000, [97], List.replicate 40 48⟩] := by
      rw [treeLoop.eq_def]
      have hre : readTreeEntry ([52, 48, 48, 48, 48, 32, 97, 0] ++ List.replicate 20 0) =
          .ok (⟨40000, [97], List.replicate 40 48⟩, 28, []) := by decide
      rw [if_neg (by omega), hre]
      dsimp only
      have h2 : (28 + (18446744073709551616 - 28 % 18446744073709551616)) %
          18446744073709551616 = 0 := by norm_num
      rw [h2, treeLoop_zero]
    have h1 : readUntil 32 ([116, 114, 101, 101] ++
        32 :: ([50, 56] ++ 0 :: ([52, 48, 48, 48, 48, 32, 97, 0] ++ List.replicate 20 0))) =
        ([116, 114, 101, 101] ++ [32],
          [50, 56] ++ 0 :: ([52, 48, 48, 48, 48, 32, 97, 0] ++ List.replicate 20 0)) :=
      readUntil_split 32 [116, 114, 101, 101] _ (by decide)
    have h2 : readUntil 0 ([50, 56] ++ 0 :: ([52, 48, 48, 48, 48, 32, 97, 0] ++
        List.replicate 20 0)) =
        ([50, 56] ++ [0], [52, 48, 48, 48, 48, 32, 97, 0] ++ List.replicate 20 0) :=
      readUntil_split 0 [50, 56] _ (by decide)
    have hu : utf8Valid [50, 56] = true := by decide
    have hp : parseDecBounded 18446744073709551616 [50, 56] = some 28 := by decide
    have hbf : [98, 108, 111, 98].isPrefixOf [116, 114, 101, 101] = false := by decide
    have htr : [116, 114, 101, 101].isPrefixOf [116, 114, 101, 101] = true := by decide
    show parseObject ([116, 114, 101, 101] ++
      32 :: ([50, 56] ++ 0 :: ([52, 48, 48, 48, 48, 32, 97, 0] ++ List.replicate 20 0))) = _
    unfold parseObject
    rw [h1]
    simp only [h2, stripSuffix1_concat, hu, hp]
    rw [if_pos (Or.inr (Or.inl htr)), if_pos trivial, if_neg (by simp [hbf]), if_pos htr]
    rw [hloop]

/-- Witness for the amended C4 at a concrete size: declared size 3 with an
empty entry stream panics rather than reporting a typed error. -/
theorem claim4_truncation_amended_w :
    0 < 3 ∧ treeLoop 3 [] = .error .panic :=
  ⟨by decide, claim4_truncation_amended.2.1 3 (by decide)⟩

/-- C5: `write_object_file` creates the two-character hash-prefix
subdirectory unconditionally (`fs::create_dir`, no existence check), so for
any two packed byte sequences whose hashes share the first two hex
characters, writing the first from a fresh store succeeds and writing the
second immediately after fails with the directory-exists error. -/
theorem claim5_prefix_collision (p1 p2 : List Nat)
    (hpre : (sha1Hex p2).take 2 = (sha1Hex p1).take 2) :
    ∃ (h1 : List Nat) (st1 : Store),
      writeObjectFile p1 emptyStore = .ok (h1, st1) ∧
      writeObjectFile p2 st1 = .error .dirExists := by
  refine ⟨sha1Hex p1,
    ⟨[(sha1Hex p1).take 2], [(objPath (sha1Hex p1), zlibCompress p1)]⟩, ?_, ?_⟩
  · unfold writeObjectFile emptyStore
    simp
  · unfold writeObjectFile
    rw [if_pos (by rw [hpre]; exact List.mem_cons_self _ _)]

/-- Witness for C5: writing the same packed bytes twice (identical hashes
share the prefix trivially) — the second write fails although the first
succeeded. -/
theorem claim5_prefix_collision_w :
    (sha1Hex [1]).take 2 = (sha1Hex [1]).take 2 ∧
    ∃ (h1 : List Nat) (st1 : Store),
      writeObjectFile [1] emptyStore = .ok (h1, st1) ∧
      writeObjectFile [1] st1 = .error .dirExists :=
  ⟨rfl, claim5_prefix_collision [1] [1] rfl⟩

/-- C6: for every byte payload `P` (of representable length), packing `P`
as a blob, writing the packed bytes to a fresh store, reading them back at
the returned hash, decompressing and parsing yields a `Blob` whose payload
is exactly `P`. -/
theorem claim6_roundtrip (P : List Nat) (h : P.length < 18446744073709551616) :
    ∃ (hash : List Nat) (st : Store),
      writeObjectFile (blobPack P) emptyStore = .ok (hash, st) ∧
      readObject hash st = .ok (blobPack P) ∧
      parseObject (blobPack P) = .ok (.blob P) := by
  refine ⟨sha1Hex (blobPack P),
    ⟨[(sha1Hex (blobPack P)).take 2],
      [(objPath (sha1Hex (blobPack P)), zlibCompress (blobPack P))]⟩,
    ?_, ?_, parse_blobPack P h⟩
  · unfold writeObjectFile emptyStore
    simp
  · unfold readObject
    simp [List.lookup]
    rfl

/-- Witness for C6 at the concrete payload `"hi"`. -/
theorem claim6_roundtrip_w :
    ([104, 105] : List Nat).length < 18446744073709551616 ∧
    ∃ (hash : List Nat) (st : Store),
      writeObjectFile (blobPack [104, 105]) emptyStore = .ok (hash, st) ∧
      readObject hash st = .ok (blobPack [104, 105]) ∧
      parseObject (blobPack [104, 105]) = .ok (.blob [104, 105]) :=
  ⟨by decide, claim6_roundtrip [104, 105] (by decide)⟩

/-- C7: tree packing sorts entries by name byte-wise and case-sensitively,
comparing a directory entry's name as if suffixed with `/` (`sortKey` and
`entryLe` embed the `Ord for TreeEntry` impl): the packed sequence is
pairwise ordered under that comparator for every input; in particular the
entries named `b`, `a.txt` and `a` (a directory) sort as
`[a.txt, a/, b]`, and packing them in any of those two input orders
produces the same tree bytes. -/
theorem claim7_sort_order :
    (∀ es : List TreeEntry, (sortEntries es).Pairwise fun a b => entryLe a b = true) ∧
    sortEntries
        [⟨100644, [98], List.replicate 40 48⟩,
          ⟨100644, [97, 46, 116, 120, 116], List.replicate 40 48⟩,
          ⟨40000, [97], List.replicate 40 48⟩] =
      [⟨100644, [97, 46, 116, 120, 116], List.replicate 40 48⟩,
        ⟨40000, [97], List.replicate 40 48⟩,
        ⟨100644, [98], List.replicate 40 48⟩] ∧
    treeObjectPack
        [⟨100644, [98], List.replicate 40 48⟩,
          ⟨100644, [97, 46, 116, 120, 116], List.replicate 40 48⟩,
          ⟨40000, [97], List.replicate 40 48⟩] =
      treeObjectPack
        [⟨100644, [97, 46, 116, 120, 116], List.replicate 40 48⟩,
          ⟨40000, [97], List.replicate 40 48⟩,
          ⟨100644, [98], List.replicate 40 48⟩] :=
  ⟨sortEntries_pairwise, by decide, by decide⟩

/-- C8: a blob image whose header declares length `N` while the actual
payload has length `M ≠ N` fails to parse with the typed size-mismatch
format error carrying both counts — the payload is never silently truncated
to `N` bytes nor padded up to `N` bytes. -/
theorem claim8_size_mismatch (N : Nat) (P : List Nat) (hne : P.length ≠ N)
    (hN : N < 18446744073709551616) :
    parseObject ([98, 108, 111, 98, 32] ++ natToDecBytes N ++ 0 :: P) =
      .error (.sizeMismatch N P.length) := by
  rw [parse_blobHeader N P hN, if_neg hne]

/-- Witness for C8: a blob declaring 3 bytes with a 2-byte payload `"ab"`
fails with the size-mismatch error. -/
theorem claim8_size_mismatch_w :
    (([97, 98] : List Nat).length ≠ 3 ∧ (3 : Nat) < 18446744073709551616) ∧
    parseObject ([98, 108, 111, 98, 32] ++ natToDecBytes 3 ++ 0 :: [97, 98]) =
      .error (.sizeMismatch 3 2) :=
  ⟨⟨by decide, by decide⟩, claim8_size_mismatch 3 [97, 98] (by decide) (by decide)⟩

/-- C9: `read_git_object` classifies the type token by prefix, not by exact
equality: for every space-free suffix `s`, a header whose token is
`"blob" ++ s` is dispatched as a blob (here over an arbitrary payload `P`
with a matching declared size) and one whose token is `"tree" ++ s` as a
tree (here with declared size 0), instead of being rejected as an
unsupported object type. -/
theorem claim9_prefix_dispatch (s P : List Nat) (hs : 32 ∉ s)
    (hP : P.length < 18446744073709551616) :
    parseObject (([98, 108, 111, 98] ++ s) ++ 32 :: (natToDecBytes P.length ++ 0 :: P)) =
      .ok (.blob P) ∧
    parseObject (([116, 114, 101, 101] ++ s) ++ 32 :: [48, 0]) = .ok (.tree []) := by
  constructor
  · have hpre : 32 ∉ [98, 108, 111, 98] ++ s := by
      intro hm
      rcases List.mem_append.mp hm with hm | hm
      · simp at hm
      · exact hs hm
    have h1 : readUntil 32 (([98, 108, 111, 98] ++ s) ++
        32 :: (natToDecBytes P.length ++ 0 :: P)) =
        (([98, 108, 111, 98] ++ s) ++ [32], natToDecBytes P.length ++ 0 :: P) :=
      readUntil_split 32 ([98, 108, 111, 98] ++ s) _ hpre
    have h0 : (0 : Nat) ∉ natToDecBytes P.length := by
      intro hm
      have := natToDecBytes_digits P.length 0 hm
      omega
    have h2 : readUntil 0 (natToDecBytes P.length ++ 0 :: P) =
        (natToDecBytes P.length ++ [0], P) :=
      readUntil_split 0 (natToDecBytes P.length) P h0
    have hu : utf8Valid (natToDecBytes P.length) = true :=
      utf8Valid_ascii _ (fun b hb => by have := natToDecBytes_digits P.length b hb; omega)
    have hp := parseDecBounded_natToDecBytes 18446744073709551616 P.length hP
    have hof : [98, 108, 111, 98].isPrefixOf ([98, 108, 111, 98] ++ s) = true :=
      isPrefixOf_append_self [98, 108, 111, 98] s
    unfold parseObject
    rw [h1]
    simp only [h2, stripSuffix1_concat, hu, hp]
    rw [if_pos (Or.inl hof), if_pos trivial, if_pos hof, if_pos trivial]
  · have h2 : readUntil 0 [48, 0] = ([48] ++ [0], []) := readUntil_split 0 [48] [] (by decide)
    have hu : utf8Valid [48] = true := by decide
    have hp : parseDecBounded 18446744073709551616 [48] = some 0 := by decide
    have hpre : 32 ∉ [116, 114, 101, 101] ++ s := by
      intro hm
      rcases List.mem_append.mp hm with hm | hm
      · simp at hm
      · exact hs hm
    have h1 : readUntil 32 (([116, 114, 101, 101] ++ s) ++ 32 :: [48, 0]) =
        (([116, 114, 101, 101] ++ s) ++ [32], [48, 0]) :=
      readUntil_split 32 ([116, 114, 101, 101] ++ s) [48, 0] hpre
    have hof : [116, 114, 101, 101].isPrefixOf ([116, 114, 101, 101] ++ s) = true :=
      isPrefixOf_append_self [116, 114, 101, 101] s
    have hbf : [98, 108, 111, 98].isPrefixOf ([116, 114, 101, 101] ++ s) = false := rfl
    show parseObject (([116, 114, 101, 101] ++ s) ++ 32 :: [48, 0]) = _
    unfold parseObject
    rw [h1]
    simp only [h2, stripSuffix1_concat, hu, hp]
    rw [if_pos (Or.inr (Or.inl hof)), if_pos trivial, if_neg (by simp [hbf]), if_pos hof,
      treeLoop_zero]

/-- Witness for C9 at the concrete suffix `"foo"` and payload `"hi"`: the
tokens `"blobfoo"` and `"treefoo"` are accepted as blob and tree. -/
theorem claim9_prefix_dispatch_w :
    ((32 ∉ ([102, 111, 111] : List Nat)) ∧
      ([104, 105] : List Nat).length < 18446744073709551616) ∧
    parseObject (([98, 108, 111, 98] ++ [102, 111, 111]) ++
      32 :: (natToDecBytes ([104, 105] : List Nat).length ++ 0 :: [104, 105])) =
      .ok (.blob [104, 105]) ∧
    parseObject (([116, 114, 101, 101] ++ [102, 111, 111]) ++ 32 :: [48, 0]) = .ok (.tree []) :=
  ⟨⟨by decide, by decide⟩, claim9_prefix_dispatch [102, 111, 111] [104, 105] (by decide) (by decide)⟩

/-- C10: `cat-file -p` prints a stored blob's payload only when that
payload is valid UTF-8: for every payload that is not valid UTF-8, the blob
is stored and parses back successfully as a blob, yet the command fails
with the UTF-8 error (`std::str::from_utf8(&blob.data)?`), so not every
stored byte payload can be printed back. -/
theorem claim10_catfile_utf8 (data : List Nat) (hinv : utf8Valid data = false)
    (hlen : data.length < 18446744073709551616) :
    ∃ (hash : List Nat) (st : Store),
      writeObjectFile (blobPack data) emptyStore = .ok (hash, st) ∧
      parseObject (blobPack data) = .ok (.blob data) ∧
      catFile hash st = .error .notUtf8 := by
  refine ⟨sha1Hex (blobPack data),
    ⟨[(sha1Hex (blobPack data)).take 2],
      [(objPath (sha1Hex (blobPack data)), zlibCompress (blobPack data))]⟩,
    ?_, parse_blobPack data hlen, ?_⟩
  · unfold writeObjectFile emptyStore
    simp
  · unfold catFile
    simp only [List.lookup, beq_self_eq_true, if_pos]
    have hz : zlibDecompress (zlibCompress (blobPack data)) = blobPack data := rfl
    rw [hz, parse_blobPack data hlen]
    simp [hinv]

/-- Witness for C10 at the concrete one-byte payload `0xFF`, which is not
valid UTF-8. -/
theorem claim10_catfile_utf8_w :
    (utf8Valid [255] = false ∧ ([255] : List Nat).length < 18446744073709551616) ∧
    ∃ (hash : List Nat) (st : Store),
      writeObjectFile (blobPack [255]) emptyStore = .ok (hash, st) ∧
      parseObject (blobPack [255]) = .ok (.blob [255]) ∧
      catFile hash st = .error .notUtf8 :=
  ⟨⟨by decide, by decide⟩, claim10_catfile_utf8 [255] (by decide) (by decide)⟩

end GitPlumbing
